import Mathlib

/-!
# Spokely Work Order Tracking — verification of the notification engine

Shallow embedding of the finished-transition detection and notification
engine of the Spokely work-order tracker (`app.py`, the CLI prototype, and
`web_app.py`, the web prototype).

Work-order records and log entries are Python dicts loaded from JSON; a
field read with `.get(...)` may be absent, which we model with `Option`
(`none` = missing key / JSON `null`).  File I/O that the engine performs
through its storage helpers is modelled as explicit state passing: the
event-log file content is a `List LogEntry` threaded through the
functions, and the failure behaviour of the log writer is modelled
separately with a `LogStore` carrying a write-failure flag.
-/

/-- A work-order record (a Python dict); only the fields the engine
reads are modelled.  `none` models a missing key. -/
structure WorkOrder where
  id : Option Int
  customer : Option String
  item : Option String
  status : Option String
  notification_sent : Option Bool
deriving Repr, DecidableEq

/-- An event-log entry: `{"timestamp", "workorder_id", "event_type", "message"}`. -/
structure LogEntry where
  timestamp : String
  workorder_id : Option Int
  event_type : String
  message : String
deriving Repr, DecidableEq

/-- Python `str.strip()` over the character list of a string: drop
whitespace from both ends. -/
def pyStrip (s : String) : String :=
  ⟨((s.data.dropWhile Char.isWhitespace).reverse.dropWhile Char.isWhitespace).reverse⟩

/-- Python `str.lower()` over the character list of a string (ASCII
lowering; the statuses this system compares are ASCII). -/
def pyLower (s : String) : String :=
  ⟨s.data.map Char.toLower⟩

/-- `web_app._status_finished`: `(status or "").strip().lower() in
("finished", "complete", "completed")`.  A missing / `None` status behaves
as the empty string. -/
def _status_finished (status : Option String) : Bool :=
  ["finished", "complete", "completed"].contains (pyLower (pyStrip (status.getD "")))

/-- `web_app.append_event` in the run where the log-file write succeeds:
read the log, append one entry, write it back.  `now` is the timestamp
string `datetime.utcnow()` produced for this call.  The failing-write
path of the underlying writer is modelled below by `_write_event_log`
over a `LogStore`. -/
def append_event (log : List LogEntry) (now : String) (workorder_id : Option Int)
    (event_type message : String) : List LogEntry :=
  log ++ [⟨now, workorder_id, event_type, message⟩]

/-- Python rendering of an optional id inside an f-string
(`f"...#{wid}..."`): `None` prints as `"None"`. -/
def optIdStr : Option Int → String
  | some n => toString n
  | none => "None"

/-- Lookup in the dict `old_by_id = {wo.get("id"): wo for wo in (old_list or [])}`:
a Python dict comprehension lets later records overwrite earlier ones with
the same key, so the lookup finds the LAST record of `old_list` whose id
equals `wid`. -/
def old_by_id_get (old_list : List WorkOrder) (wid : Option Int) : Option WorkOrder :=
  old_list.reverse.find? (fun wo => wo.id == wid)

/-- Lines 124–125 of `web_app.detect_finished_and_notify`:
`old_wo = old_by_id.get(wid)` followed by
`old_finished = _status_finished(old_wo.get("status")) if old_wo else False`
— a record whose id is absent from the previous snapshot counts as not
finished. -/
def old_finished_of (old_list : List WorkOrder) (wid : Option Int) : Bool :=
  match old_by_id_get old_list wid with
  | some old_wo => _status_finished old_wo.status
  | none => false

/-- The loop body of `web_app.detect_finished_and_notify`: walk the
current list; for each record compute `new_finished` from its status and
`old_finished` from the previous snapshot; on a not-finished-to-finished
edge append one event-log entry and collect `(wid, customer, item)`. -/
def detect_loop (old_list : List WorkOrder) (now : String) :
    List WorkOrder → List LogEntry → List (Option Int × String × String) × List LogEntry
  | [], log => ([], log)
  | wo :: rest, log =>
    let wid := wo.id
    let new_finished := _status_finished wo.status
    let old_finished := old_finished_of old_list wid
    if new_finished && !old_finished then
      let customer := wo.customer.getD ""
      let item := wo.item.getD ""
      let message := "SMS would be sent to " ++ customer ++ " for work order #"
        ++ optIdStr wid ++ " (" ++ item ++ ")"
      let res := detect_loop old_list now rest (append_event log now wid "sms_simulated" message)
      ((wid, customer, item) :: res.1, res.2)
    else
      detect_loop old_list now rest log

/-- `web_app.detect_finished_and_notify(old_list, new_list)`: `None` in
place of either list behaves as the empty list (`old_list or []`,
`new_list or []`).  Returns the banner list of `(workorder_id, customer,
item)` notified this run, together with the event log after the run. -/
def detect_finished_and_notify (old_list new_list : Option (List WorkOrder))
    (log : List LogEntry) (now : String) :
    List (Option Int × String × String) × List LogEntry :=
  detect_loop (old_list.getD []) now (new_list.getD []) log

/-- Python suffix slice `l[start:]` for an `Int` index: a negative start
counts from the end (clamped at the front), a non-negative start drops
that many elements. -/
def pySliceFrom (l : List LogEntry) (start : Int) : List LogEntry :=
  if start < 0 then l.drop ((l.length + start).toNat) else l.drop start.toNat

/-- `web_app.get_recent_events(limit)`:
`events[-limit:] if len(events) > limit else events`. -/
def get_recent_events (events : List LogEntry) (limit : Int) : List LogEntry :=
  if (events.length : Int) > limit then pySliceFrom events (-limit) else events

/-- The event-log file together with a flag saying whether writing it
fails (the `OSError` path of `web_app._write_event_log`). -/
structure LogStore where
  events : List LogEntry
  write_fails : Bool
deriving Repr, DecidableEq

/-- `web_app._write_event_log(events)`: `try: ... json.dump ... except
OSError: pass` — on a failing write the function returns normally,
leaving the stored log unchanged and reporting nothing to the caller. -/
def _write_event_log (st : LogStore) (events : List LogEntry) : LogStore :=
  if st.write_fails then st else ⟨events, st.write_fails⟩

/-- `web_app.append_event` over the fallible store: read the log, append
the entry, write back through `_write_event_log`.  The Python function
returns `None` in every case, so its result type carries no error
channel: the returned value is only the store after the call. -/
def append_event_store (st : LogStore) (now : String) (workorder_id : Option Int)
    (event_type message : String) : LogStore :=
  _write_event_log st (st.events ++ [⟨now, workorder_id, event_type, message⟩])

/-- First record of the list whose `"id"` equals `wid` (the find loop of
`app.finish_work_order`; `web_app`'s mark-finished loop compares
`wo.get("id") == wid` the same way — a record without an id never
matches an integer id). -/
def find_work_order : List WorkOrder → Int → Option WorkOrder
  | [], _ => none
  | wo :: rest, wid =>
    if wo.id == some wid then some wo else find_work_order rest wid

/-- In-place mutation of the first record matching `wid` in
`app.finish_work_order`: set `status = "finished"` and
`notification_sent = True` on that record, leave the rest alone. -/
def finish_update : List WorkOrder → Int → List WorkOrder
  | [], _ => []
  | wo :: rest, wid =>
    if wo.id == some wid then
      { wo with status := some "finished", notification_sent := some true } :: rest
    else
      wo :: finish_update rest wid

/-- `app.finish_work_order` on a record list and a requested id, with the
interactive prints elided.  Returns the record list after the call and
whether the SMS notification was dispatched.  If the found record has no
`"notification_sent"` key, the Python code raises `KeyError` before any
mutation: the list is unchanged and nothing is dispatched. -/
def finish_work_order (l : List WorkOrder) (wid : Int) : List WorkOrder × Bool :=
  match find_work_order l wid with
  | none => (l, false)
  | some wo =>
    match wo.notification_sent with
    | none => (l, false)
    | some true => (l, false)
    | some false => (finish_update l wid, true)

/-- The mark-finished branch of `web_app.index`: set the first matching
record's status to `"Finished"`, and its `notification_sent` to `True`
only when the key is present (`if "notification_sent" in wo`). -/
def mark_finished : List WorkOrder → Int → List WorkOrder
  | [], _ => []
  | wo :: rest, wid =>
    if wo.id == some wid then
      { wo with
        status := some "Finished"
        notification_sent := if wo.notification_sent.isSome then some true else wo.notification_sent } :: rest
    else
      wo :: mark_finished rest wid

/-- The backfill of one record in `app.load_work_orders`: a record missing
the `"notification_sent"` key gets `notification_sent = (wo.get("status")
== "finished")` — an exact, case-sensitive, untrimmed string comparison
(`None == "finished"` is `False` in Python). -/
def backfill_record (wo : WorkOrder) : WorkOrder :=
  if wo.notification_sent.isNone then
    { wo with notification_sent := some (wo.status == some "finished") }
  else
    wo

/-- `app.load_work_orders` on successfully parsed file content: backfill
every record's `notification_sent` key.  (A missing or unparsable file
yields the empty list instead; that path carries no records.) -/
def load_work_orders (l : List WorkOrder) : List WorkOrder :=
  l.map backfill_record

/-- `web_app._next_id`: `max((wo.get("id", 0) for wo in work_orders),
default=0) + 1`. -/
def _next_id (l : List WorkOrder) : Int :=
  ((l.map (fun wo => wo.id.getD 0)).max?.getD 0) + 1

/-- The add-work-order branch of `web_app.index` (customer and item
already stripped): append one record with `notification_sent = False`
when both customer and item are non-empty, otherwise change nothing. -/
def add_work_order (l : List WorkOrder) (customer item status : String) : List WorkOrder :=
  if customer.isEmpty || item.isEmpty then l
  else l ++ [⟨some (_next_id l), some customer, some item, some status, some false⟩]

/-- The data-model invariant: a record whose `notification_sent` flag is
`True` has a status satisfying the finished predicate. -/
def notified_inv (l : List WorkOrder) : Prop :=
  ∀ wo ∈ l, wo.notification_sent = some true → _status_finished wo.status = true

-- -----------------------------------------------------------------------------
-- Theorems
-- -----------------------------------------------------------------------------

/-- C4: the finished predicate is the trim-then-lowercase membership test
against `{finished, complete, completed}`: `"Finished"`, `" finished "`,
`"COMPLETE"` and `"Completed"` satisfy it; `"in progress"`, the empty
string and an unset (`None`) status do not. -/
theorem status_finished_is_normalized_membership :
    (∀ s : String,
      _status_finished (some s) =
        ["finished", "complete", "completed"].contains (pyLower (pyStrip s))) ∧
    _status_finished (some "Finished") = true ∧
    _status_finished (some " finished ") = true ∧
    _status_finished (some "COMPLETE") = true ∧
    _status_finished (some "Completed") = true ∧
    _status_finished (some "in progress") = false ∧
    _status_finished (some "") = false ∧
    _status_finished none = false :=
  ⟨fun _ => rfl, by decide, by decide, by decide, by decide, by decide, by decide, by decide⟩

/-- C5 (code-bug evidence): on a non-empty log, `get_recent_events 0`
returns the WHOLE log (`events[-0:]` is `events[0:]` in Python) and a
negative limit drops entries from the FRONT, while the contract says any
`limit <= 0` yields the empty sequence; a positive limit behaves as
specified (last `limit` entries, oldest of the window first). -/
theorem get_recent_events_nonpositive_limit_bug :
    get_recent_events [⟨"t1", some 1, "e", "m1"⟩, ⟨"t2", some 2, "e", "m2"⟩] 0 =
      [⟨"t1", some 1, "e", "m1"⟩, ⟨"t2", some 2, "e", "m2"⟩] ∧
    get_recent_events
        [⟨"t1", some 1, "e", "m1"⟩, ⟨"t2", some 2, "e", "m2"⟩, ⟨"t3", some 3, "e", "m3"⟩] (-1) =
      [⟨"t2", some 2, "e", "m2"⟩, ⟨"t3", some 3, "e", "m3"⟩] ∧
    get_recent_events
        [⟨"t1", some 1, "e", "m1"⟩, ⟨"t2", some 2, "e", "m2"⟩, ⟨"t3", some 3, "e", "m3"⟩] 2 =
      [⟨"t2", some 2, "e", "m2"⟩, ⟨"t3", some 3, "e", "m3"⟩] := by
  refine ⟨?_, ?_, ?_⟩ <;> decide

/-- C6 (code-bug evidence): when the event-log write fails,
`append_event` returns normally with the stored log unchanged — the
entry is silently dropped and no storage failure is reported to the
caller (the function's result carries no error channel). -/
theorem append_event_store_swallows_write_failure :
    append_event_store ⟨[], true⟩ "t" (some 7) "sms_simulated"
        "SMS would be sent to Ana for work order #7 (Tune-up)" =
      ⟨[], true⟩ := by
  decide

/-- C9: the snapshot-diff detector is total over missing snapshots:
`None` for the previous list behaves as the empty snapshot, and `None`
for the current list yields no transitions and an unchanged log. -/
theorem detect_total_over_missing_snapshots :
    ∀ (xs : List WorkOrder) (log : List LogEntry) (now : String),
      detect_finished_and_notify none (some xs) log now =
        detect_finished_and_notify (some []) (some xs) log now ∧
      detect_finished_and_notify (some xs) none log now = ([], log) :=
  fun _ _ _ => ⟨rfl, rfl⟩

theorem detect_loop_fst (old : List WorkOrder) (now : String) (new : List WorkOrder)
    (log : List LogEntry) :
    (detect_loop old now new log).1 =
      (new.filter (fun wo => _status_finished wo.status && !(old_finished_of old wo.id))).map
        (fun wo => (wo.id, wo.customer.getD "", wo.item.getD "")) := by
  induction new generalizing log with
  | nil => rfl
  | cons wo rest ih =>
    simp only [detect_loop, List.filter_cons]
    by_cases h : (_status_finished wo.status && !(old_finished_of old wo.id)) = true
    · simp [h, ih]
    · simp [h, ih]

theorem old_finished_of_absent (old : List WorkOrder) (wid : Option Int) :
    old_finished_of (old.filter (fun o => !(o.id == wid))) wid = false := by
  have hfind : old_by_id_get (old.filter (fun o => !(o.id == wid))) wid = none := by
    apply List.find?_eq_none.mpr
    intro o ho
    have hmem : o ∈ old.filter (fun o => !(o.id == wid)) := List.mem_reverse.mp ho
    have := (List.mem_filter.mp hmem).2
    simp_all
  simp [old_finished_of, hfind]

/-- C1: on any previous and current snapshot, the snapshot-diff detector
returns exactly the `(id, customer, item)` triples of the current-snapshot
records whose current status is finished and whose previous-snapshot
status was not, in the iteration order of the current snapshot; an id
absent from the previous snapshot counts as not finished (so a record that
is already finished when it first appears does produce a transition). -/
theorem detect_returns_new_transitions_in_order :
    ∀ (old new : List WorkOrder) (log : List LogEntry) (now : String),
      (detect_finished_and_notify (some old) (some new) log now).1 =
        (new.filter (fun wo => _status_finished wo.status && !(old_finished_of old wo.id))).map
          (fun wo => (wo.id, wo.customer.getD "", wo.item.getD "")) ∧
      ∀ wid : Option Int, old_finished_of (old.filter (fun o => !(o.id == wid))) wid = false :=
  fun old new log now =>
    ⟨detect_loop_fst old now new log, fun wid => old_finished_of_absent old wid⟩

theorem find_key_nodup {l : List WorkOrder} (h : (l.map WorkOrder.id).Nodup)
    {wo : WorkOrder} (hm : wo ∈ l) :
    l.find? (fun o => o.id == wo.id) = some wo := by
  induction l with
  | nil => cases hm
  | cons b t ih =>
    rcases List.mem_cons.mp hm with rfl | hm'
    · simp [List.find?]
    · rw [List.map_cons, List.nodup_cons] at h
      obtain ⟨hnotin, hnd⟩ := h
      have hb : (b.id == wo.id) = false := by
        rw [beq_eq_false_iff_ne]
        intro heq
        exact hnotin (heq ▸ List.mem_map_of_mem WorkOrder.id hm')
      simp [List.find?, hb, ih hnd hm']

theorem old_by_id_get_self {l : List WorkOrder} (h : (l.map WorkOrder.id).Nodup)
    {wo : WorkOrder} (hm : wo ∈ l) :
    old_by_id_get l wo.id = some wo := by
  have hrev : (l.reverse.map WorkOrder.id).Nodup := by
    rw [List.map_reverse]
    exact List.nodup_reverse.mpr h
  exact find_key_nodup hrev (List.mem_reverse.mpr hm)

theorem detect_loop_noop (old : List WorkOrder) (now : String) :
    ∀ (new : List WorkOrder) (log : List LogEntry),
      (∀ wo ∈ new, old_finished_of old wo.id = _status_finished wo.status) →
      detect_loop old now new log = ([], log)
  | [], _, _ => rfl
  | wo :: rest, log, h => by
    have hw := h wo (List.mem_cons_self wo rest)
    have hcond : (_status_finished wo.status && !(old_finished_of old wo.id)) = false := by
      rw [hw]
      exact Bool.and_not_self _
    simp only [detect_loop, hcond, Bool.false_eq_true, if_false]
    exact detect_loop_noop old now rest log (fun w hm => h w (List.mem_cons_of_mem _ hm))

/-- C2 counterexample: with two records sharing id 1 in the snapshot
(first finished, second not), the detector run on IDENTICAL previous and
current snapshots still dispatches a notification and appends a log
entry, because the previous-snapshot dict keeps only the last record of
a duplicated id. -/
theorem detect_identical_snapshots_counterexample :
    (detect_finished_and_notify
        (some [⟨some 1, some "Ana", some "Tune-up", some "finished", some false⟩,
               ⟨some 1, some "Bob", some "Repair", some "in progress", some false⟩])
        (some [⟨some 1, some "Ana", some "Tune-up", some "finished", some false⟩,
               ⟨some 1, some "Bob", some "Repair", some "in progress", some false⟩])
        [] "t").1 = [(some 1, "Ana", "Tune-up")] ∧
    ((detect_finished_and_notify
        (some [⟨some 1, some "Ana", some "Tune-up", some "finished", some false⟩,
               ⟨some 1, some "Bob", some "Repair", some "in progress", some false⟩])
        (some [⟨some 1, some "Ana", some "Tune-up", some "finished", some false⟩,
               ⟨some 1, some "Bob", some "Repair", some "in progress", some false⟩])
        [] "t").2).length = 1 := by
  refine ⟨?_, ?_⟩ <;> decide

/-- C2 (amended): when no two records of the snapshot share an id key
(`wo.get("id")`; records without an id share the key `None`), running the
detector with identical previous and current snapshots dispatches no
notification and leaves the event log unchanged, no matter how many
times the call is repeated, and `recent(10)` keeps the same length. -/
theorem detect_identical_snapshots_noop (xs : List WorkOrder) (log : List LogEntry)
    (now : String) (h : (xs.map WorkOrder.id).Nodup) :
    detect_finished_and_notify (some xs) (some xs) log now = ([], log) ∧
    (∀ n : Nat,
      (fun lg => (detect_finished_and_notify (some xs) (some xs) lg now).2)^[n] log = log) ∧
    (get_recent_events (detect_finished_and_notify (some xs) (some xs) log now).2 10).length =
      (get_recent_events log 10).length := by
  have key : ∀ lg : List LogEntry,
      detect_finished_and_notify (some xs) (some xs) lg now = ([], lg) := by
    intro lg
    show detect_loop xs now xs lg = ([], lg)
    apply detect_loop_noop
    intro wo hm
    unfold old_finished_of
    rw [old_by_id_get_self h hm]
  refine ⟨key log, ?_, by rw [key log]⟩
  intro n
  induction n with
  | zero => rfl
  | succ m ihm => simp [Function.iterate_succ_apply', ihm, key log]

/-- Witness for the amended C2 at a concrete two-record snapshot. -/
theorem detect_identical_snapshots_noop_witness :
    detect_finished_and_notify
        (some [⟨some 1, some "Ana", some "Tune-up", some "finished", some true⟩,
               ⟨some 2, some "Bob", some "Repair", some "in progress", some false⟩])
        (some [⟨some 1, some "Ana", some "Tune-up", some "finished", some true⟩,
               ⟨some 2, some "Bob", some "Repair", some "in progress", some false⟩])
        [⟨"t0", some 1, "sms_simulated", "m"⟩] "t1" =
      ([], [⟨"t0", some 1, "sms_simulated", "m"⟩]) :=
  (detect_identical_snapshots_noop _ _ _ (by decide)).1

theorem find_finish_update {l : List WorkOrder} {wid : Int} {wo : WorkOrder}
    (h : find_work_order l wid = some wo) :
    find_work_order (finish_update l wid) wid =
      some { wo with status := some "finished", notification_sent := some true } := by
  induction l with
  | nil => cases h
  | cons b t ih =>
    by_cases hb : (b.id == some wid) = true
    · simp only [find_work_order, hb, if_true] at h
      injection h with h'
      subst h'
      simp [finish_update, find_work_order, hb]
    · simp only [find_work_order, hb, Bool.false_eq_true, if_false] at h
      simp [finish_update, find_work_order, hb, ih h]

/-- C3: in stateful mode (`app.finish_work_order`), a dispatch happens
exactly when the record, as it stands when the notification decision takes
effect, has a status satisfying the finished predicate and its stored
`notification_sent` flag was false; in particular a record observed with
status `"Finished"` and `notification_sent` already `True` produces no
dispatch and leaves the record list unchanged (this path touches no event
log). -/
theorem finish_dispatches_iff_finished_and_unnotified
    (l : List WorkOrder) (wid : Int) (wo : WorkOrder)
    (hfind : find_work_order l wid = some wo) (hkey : wo.notification_sent ≠ none) :
    ((finish_work_order l wid).2 = true ↔
      (∃ wo', find_work_order (finish_work_order l wid).1 wid = some wo' ∧
        _status_finished wo'.status = true ∧ wo.notification_sent = some false)) ∧
    (wo.status = some "Finished" → wo.notification_sent = some true →
      finish_work_order l wid = (l, false)) := by
  cases hns : wo.notification_sent with
  | none => exact absurd hns hkey
  | some b =>
    cases b with
    | true =>
      refine ⟨?_, fun _ _ => ?_⟩
      · simp [finish_work_order, hfind, hns]
      · simp [finish_work_order, hfind, hns]
    | false =>
      refine ⟨?_, fun _ hcontra => ?_⟩
      · constructor
        · intro _
          refine ⟨{ wo with status := some "finished", notification_sent := some true },
            ?_, ?_, rfl⟩
          · simp only [finish_work_order, hfind, hns]
            exact find_finish_update hfind
          · show _status_finished (some "finished") = true
            decide
        · intro _
          simp [finish_work_order, hfind, hns]
      · simp at hcontra

/-- Witness for C3 at a concrete one-record list: marking work order 7
(status `"in progress"`, not yet notified) dispatches, and the dispatch
condition is exactly the finished-and-unnotified test. -/
theorem finish_dispatches_iff_witness :
    (finish_work_order
        [⟨some 7, some "Ana", some "Tune-up", some "in progress", some false⟩] 7).2 = true ↔
      (∃ wo', find_work_order
          (finish_work_order
            [⟨some 7, some "Ana", some "Tune-up", some "in progress", some false⟩] 7).1 7 =
            some wo' ∧
        _status_finished wo'.status = true ∧
        (⟨some 7, some "Ana", some "Tune-up", some "in progress",
          some false⟩ : WorkOrder).notification_sent = some false) :=
  (finish_dispatches_iff_finished_and_unnotified _ 7 _ (by decide) (by decide)).1

theorem notified_inv_finish_update :
    ∀ {l : List WorkOrder} {wid : Int}, notified_inv l → notified_inv (finish_update l wid)
  | [], _, _ => fun wo hm => absurd hm (List.not_mem_nil wo)
  | b :: t, wid, h => by
    have ht : notified_inv t := fun w hw => h w (List.mem_cons_of_mem _ hw)
    intro wo hm hflag
    by_cases hb : (b.id == some wid) = true
    · simp only [finish_update, hb, if_true] at hm
      rcases List.mem_cons.mp hm with rfl | hm'
      · show _status_finished (some "finished") = true
        decide
      · exact ht wo hm' hflag
    · simp only [finish_update, hb, Bool.false_eq_true, if_false] at hm
      rcases List.mem_cons.mp hm with rfl | hm'
      · exact h wo (List.mem_cons_self _ _) hflag
      · exact notified_inv_finish_update ht wo hm' hflag

theorem notified_inv_mark_finished :
    ∀ {l : List WorkOrder} {wid : Int}, notified_inv l → notified_inv (mark_finished l wid)
  | [], _, _ => fun wo hm => absurd hm (List.not_mem_nil wo)
  | b :: t, wid, h => by
    have ht : notified_inv t := fun w hw => h w (List.mem_cons_of_mem _ hw)
    intro wo hm hflag
    by_cases hb : (b.id == some wid) = true
    · simp only [mark_finished, hb, if_true] at hm
      rcases List.mem_cons.mp hm with rfl | hm'
      · show _status_finished (some "Finished") = true
        decide
      · exact ht wo hm' hflag
    · simp only [mark_finished, hb, Bool.false_eq_true, if_false] at hm
      rcases List.mem_cons.mp hm with rfl | hm'
      · exact h wo (List.mem_cons_self _ _) hflag
      · exact notified_inv_mark_finished ht wo hm' hflag

theorem notified_inv_load {l : List WorkOrder} (h : notified_inv l) :
    notified_inv (load_work_orders l) := by
  intro wo hm hflag
  rcases List.mem_map.mp hm with ⟨x, hx, rfl⟩
  cases hxs : x.notification_sent with
  | none =>
    simp only [backfill_record, hxs, Option.isNone_none, if_true] at hflag ⊢
    simp only [Option.some.injEq] at hflag
    have hst : x.status = some "finished" := by
      have := hflag
      rwa [beq_iff_eq] at this
    rw [hst]
    decide
  | some b =>
    have hbe : backfill_record x = x := by simp [backfill_record, hxs]
    rw [hbe] at hflag ⊢
    exact h x hx hflag

theorem notified_inv_add {l : List WorkOrder} {c i s : String} (h : notified_inv l) :
    notified_inv (add_work_order l c i s) := by
  intro wo hm hflag
  unfold add_work_order at hm
  by_cases hc : (c.isEmpty || i.isEmpty) = true
  · rw [if_pos hc] at hm
    exact h wo hm hflag
  · rw [if_neg hc] at hm
    rcases List.mem_append.mp hm with hm' | hm'
    · exact h wo hm' hflag
    · rw [List.mem_singleton.mp hm'] at hflag
      cases hflag

/-- C7: every operation of the system preserves the invariant that a
record with `notification_sent = True` has a finished status: the CLI
finish operation, the web mark-finished handler, the load-time backfill,
and adding a record all map an invariant-respecting record list to an
invariant-respecting one; none of them sets the flag on a record left
with a non-finished status. -/
theorem notified_invariant_preserved :
    (∀ (l : List WorkOrder) (wid : Int),
      notified_inv l → notified_inv (finish_work_order l wid).1) ∧
    (∀ (l : List WorkOrder) (wid : Int),
      notified_inv l → notified_inv (mark_finished l wid)) ∧
    (∀ l : List WorkOrder, notified_inv l → notified_inv (load_work_orders l)) ∧
    (∀ (l : List WorkOrder) (c i s : String),
      notified_inv l → notified_inv (add_work_order l c i s)) := by
  refine ⟨?_, ?_, ?_, ?_⟩
  · intro l wid h
    unfold finish_work_order
    split
    · exact h
    · split
      · exact h
      · exact h
      · exact notified_inv_finish_update h
  · intro l wid h
    exact notified_inv_mark_finished h
  · intro l h
    exact notified_inv_load h
  · intro l c i s h
    exact notified_inv_add h

/-- Witness for C7: the four preservation facts applied at concrete
invariant-respecting lists. -/
theorem notified_invariant_preserved_witness :
    notified_inv (finish_work_order
      [⟨some 7, some "Ana", some "Tune-up", some "in progress", some false⟩] 7).1 ∧
    notified_inv (mark_finished
      [⟨some 7, some "Ana", some "Tune-up", some "Finished", some true⟩] 7) ∧
    notified_inv (load_work_orders
      [⟨some 3, some "Cam", some "Brakes", some "complete", none⟩]) ∧
    notified_inv (add_work_order [] "Ana" "Tune-up" "in progress") :=
  ⟨notified_invariant_preserved.1 _ 7 (by unfold notified_inv; decide),
   notified_invariant_preserved.2.1 _ 7 (by unfold notified_inv; decide),
   notified_invariant_preserved.2.2.1 _ (by unfold notified_inv; decide),
   notified_invariant_preserved.2.2.2 _ "Ana" "Tune-up" "in progress"
     (by unfold notified_inv; decide)⟩

/-- C10: after `load_work_orders`, every record has a
`notification_sent` key; a record missing the key is backfilled with
`notification_sent = (status == "finished")`, an exact case-sensitive
untrimmed comparison — so legacy records whose status is `"Finished"`,
`"complete"` or `"completed"` are backfilled as NOT notified even though
the normalized finished predicate accepts those statuses. -/
theorem load_backfills_exact_string_finished :
    (∀ l : List WorkOrder, ∀ wo ∈ load_work_orders l, wo.notification_sent.isSome = true) ∧
    (∀ wo : WorkOrder, wo.notification_sent = none →
      (backfill_record wo).notification_sent = some (wo.status == some "finished")) ∧
    ((backfill_record ⟨some 1, some "c", some "i", some "Finished", none⟩).notification_sent =
        some false ∧
      _status_finished (some "Finished") = true) ∧
    ((backfill_record ⟨some 2, some "c", some "i", some "complete", none⟩).notification_sent =
        some false ∧
      _status_finished (some "complete") = true) ∧
    ((backfill_record ⟨some 3, some "c", some "i", some "completed", none⟩).notification_sent =
        some false ∧
      _status_finished (some "completed") = true) ∧
    (backfill_record ⟨some 4, some "c", some "i", some "finished", none⟩).notification_sent =
      some true := by
  refine ⟨?_, ?_, by decide, by decide, by decide, by decide⟩
  · intro l wo hm
    rcases List.mem_map.mp hm with ⟨x, _, rfl⟩
    cases hxs : x.notification_sent <;> simp [backfill_record, hxs]
  · intro wo hns
    simp [backfill_record, hns]

/-- Witness for C10: the key-presence and backfill equations applied at a
concrete legacy record with status `"Finished"` and no flag. -/
theorem load_backfills_exact_string_finished_witness :
    Option.isSome
      (WorkOrder.notification_sent
        ⟨some 1, some "c", some "i", some "Finished", some false⟩) = true ∧
    (backfill_record ⟨some 1, some "c", some "i", some "Finished", none⟩).notification_sent =
      some (WorkOrder.status ⟨some 1, some "c", some "i", some "Finished", none⟩ ==
        some "finished") :=
  ⟨load_backfills_exact_string_finished.1
      [⟨some 1, some "c", some "i", some "Finished", none⟩]
      ⟨some 1, some "c", some "i", some "Finished", some false⟩ (by decide),
   load_backfills_exact_string_finished.2.1
      ⟨some 1, some "c", some "i", some "Finished", none⟩ (by decide)⟩
